import Mathlib

/-!
Shallow embedding of the bias-news backend's narrative-clustering engine
(`src/routes/narratives.ts`), of the bounded-concurrency executor
(`src/routes/articles.ts`, `mapWithConcurrency`) and of the data model
(`src/utils/dataStore.ts`), together with proofs settling the frozen claims.

Modelling conventions:
* JS numbers holding dimension scores are modelled as `Nat` (the data model
  declares them integers in `[0,100]`; the clustering code never produces
  negatives from them).
* JS truthiness on a numeric score (`score && ...`, `score || default`) is
  modelled explicitly: a score is falsy exactly when it is `0`.
* `publishedAt` is modelled as the epoch-millisecond value of the parsed
  date (`new Date(s).valueOf()`), since the code only ever compares dates.
* JS objects used as string-keyed maps preserve insertion order, so they
  are modelled as association lists to which fresh keys are appended.
* `Math.round x` for `x ≥ 0` is `⌊x + 1/2⌋` (round half up).
-/

namespace BiasNews

/-- JS `Math.round` for the nonnegative quantities used here: `⌊q + 1/2⌋`. -/
def jsRound (q : ℚ) : ℤ := Int.floor (q + 1/2)

/-- `confidenceInterval` field of `BiasScore` (`dataStore.ts`). -/
structure ConfidenceInterval where
  lower : ℤ
  upper : ℤ
  width : ℤ
deriving DecidableEq, Repr

/-- One bias dimension (`BiasScore` in `dataStore.ts`). -/
structure BiasScore where
  score : Nat
  label : String
  confidence : ℚ
  highlightedPhrases : List String
  reasoning : String
  confidenceInterval : Option ConfidenceInterval
deriving DecidableEq, Repr

/-- Outcome tag `analysisStatus` of `BiasScores` (`dataStore.ts`). -/
inductive AnalysisStatus where
  | ai
  | fallbackApi
  | fallbackParse
  | fallbackEmpty
deriving DecidableEq, Repr

/-- The five-dimension bias payload (`BiasScores` in `dataStore.ts`). -/
structure BiasScores where
  ideologicalStance : BiasScore
  factualGrounding : BiasScore
  framingChoices : BiasScore
  emotionalTone : BiasScore
  sourceTransparency : BiasScore
  overallBiasLevel : Nat
  primarySources : List String
  analyzedAt : String
  analysisStatus : Option AnalysisStatus
  isFallback : Option Bool
deriving DecidableEq, Repr

/-- An article (`Article` in `dataStore.ts`); `publishedAt` is the parsed
date as epoch milliseconds. -/
structure Article where
  id : String
  headline : String
  content : String
  description : String
  source : String
  author : String
  publishedAt : ℤ
  url : String
  urlToImage : String
  biasScores : Option BiasScores
  narrativeCluster : Option String
  primarySources : List String
deriving DecidableEq, Repr

/-- `biasDistribution` field of `NarrativeCluster` (`narratives.ts`). -/
structure BiasDistribution where
  left : Nat
  center : Nat
  right : Nat
deriving DecidableEq, Repr

/-- `avgScores` field of `NarrativeCluster` (`narratives.ts`). -/
structure AvgScores where
  ideologicalStance : Nat
  factualGrounding : Nat
  framingChoices : Nat
  emotionalTone : Nat
  sourceTransparency : Nat
deriving DecidableEq, Repr

/-- `timeSpan` field of `NarrativeCluster`; `none` models `null`. -/
structure TimeSpan where
  earliest : Option ℤ
  latest : Option ℤ
deriving DecidableEq, Repr

/-- `NarrativeCluster` (`narratives.ts`).  The string-keyed count objects
`commonPhrases` and `sourceCount` are modelled as insertion-ordered
association lists. -/
structure NarrativeCluster where
  id : String
  topic : String
  framingType : String
  title : String
  articles : List Article
  representativeArticle : Option Article
  biasDistribution : BiasDistribution
  avgScores : AvgScores
  commonPhrases : List (String × Nat)
  sourceCount : List (String × Nat)
  timeSpan : TimeSpan
deriving DecidableEq, Repr

/-- JS `String.prototype.toLowerCase` restricted to the ASCII data used by
the keyword tables, character by character. -/
def toLowerStr (s : String) : String := String.mk (s.data.map Char.toLower)

/-- Helper for `strIncludes`: does `needle` occur in the character list? -/
def strIncludesAux (needle : List Char) : List Char → Bool
  | [] => needle.isEmpty
  | c :: rest => needle.isPrefixOf (c :: rest) || strIncludesAux needle rest

/-- JS `String.prototype.includes`: substring test. -/
def strIncludes (hay needle : String) : Bool := strIncludesAux needle.data hay.data

/-- The fixed topic vocabulary of `extractTopics` (`narratives.ts`). -/
def commonTopics : List String :=
  ["immigration", "economy", "healthcare", "education", "climate",
   "politics", "election", "covid", "ukraine", "china", "technology",
   "biden", "trump", "congress", "supreme court", "ai", "crypto"]

/-- `extractTopics` (`narratives.ts`): vocabulary entries occurring in the
lower-cased text, defaulting to `["general"]`. -/
def extractTopics (text : String) : List String :=
  let textLower := toLowerStr text
  let foundTopics := commonTopics.filter (fun topic => strIncludes textLower topic)
  if foundTopics.length > 0 then foundTopics else ["general"]

/-- `detectFramingType` (`narratives.ts`).  The JS conditions
`bs?.dim.score && bs.dim.score ⊛ k` are truthy exactly when the scores
payload is present, the score is nonzero and the comparison holds. -/
def detectFramingType (article : Article) : String :=
  let content := toLowerStr (article.headline ++ " " ++ article.content)
  if strIncludes content "cost" || strIncludes content "economy" ||
      strIncludes content "budget" then
    match article.biasScores with
    | some bs =>
        if bs.ideologicalStance.score ≠ 0 ∧ bs.ideologicalStance.score > 60 then
          "economic-concern"
        else "economic-impact"
    | none => "economic-impact"
  else if strIncludes content "security" || strIncludes content "safety" ||
      strIncludes content "threat" then
    "security-focused"
  else if strIncludes content "rights" || strIncludes content "humanitarian" ||
      strIncludes content "justice" then
    "rights-based"
  else if strIncludes content "policy" || strIncludes content "legislation" ||
      strIncludes content "regulation" then
    "policy-focused"
  else
    match article.biasScores with
    | some bs =>
        if bs.emotionalTone.score ≠ 0 ∧ bs.emotionalTone.score < 40 then
          "alarmist"
        else if bs.emotionalTone.score ≠ 0 ∧ bs.emotionalTone.score > 70 then
          "neutral-reporting"
        else "advocacy-oriented"
    | none => "advocacy-oriented"

/-- One step of the FNV-1a-style loop of `generateClusterId`: xor in a
code unit, multiply by the FNV prime with `Math.imul`'s 32-bit wraparound. -/
def fnvStep (hash c : Nat) : Nat := ((hash ^^^ c) * 16777619) % 4294967296

/-- The 32-bit hash accumulated by `generateClusterId` (`hash >>> 0`). -/
def fnvHash (s : String) : Nat :=
  s.data.foldl (fun h ch => fnvStep h ch.toNat) 2166136261

/-- Digit characters of JS `Number.prototype.toString(36)`. -/
def digitChar36 (n : Nat) : Char :=
  if n < 10 then Char.ofNat (48 + n) else Char.ofNat (87 + n)

/-- Helper for `natToBase36`, structurally recursive on fuel. -/
def toBase36Aux : Nat → Nat → List Char → List Char
  | 0, _, acc => acc
  | fuel + 1, n, acc =>
      if n < 36 then digitChar36 n :: acc
      else toBase36Aux fuel (n / 36) (digitChar36 (n % 36) :: acc)

/-- JS `n.toString(36)` for a nonnegative integer. -/
def natToBase36 (n : Nat) : String := String.mk (toBase36Aux (n + 1) n [])

/-- `generateClusterId` (`narratives.ts`): first 8 characters of the
base-36 rendering of the unsigned 32-bit FNV-1a-style hash of the key. -/
def generateClusterId (clusterKey : String) : String :=
  (natToBase36 (fnvHash clusterKey)).take 8

/-- `topicTitles` table of `generateClusterTitle` (`narratives.ts`). -/
def topicTitles : List (String × String) :=
  [("immigration", "Immigration Policy"), ("economy", "Economic Policy"),
   ("healthcare", "Healthcare Reform"), ("climate", "Climate Change"),
   ("technology", "Tech Regulation"), ("education", "Education Policy"),
   ("general", "Breaking News")]

/-- `framingTitles` table of `generateClusterTitle` (`narratives.ts`). -/
def framingTitles : List (String × String) :=
  [("economic-concern", "Economic Impact Focus"),
   ("economic-impact", "Cost-Benefit Analysis"),
   ("security-focused", "Security Implications"),
   ("rights-based", "Human Rights Perspective"),
   ("policy-focused", "Policy Implementation"),
   ("alarmist", "Crisis Framing"),
   ("neutral-reporting", "Factual Reporting"),
   ("advocacy-oriented", "Opinion-Driven Coverage")]

/-- `generateClusterTitle` (`narratives.ts`). -/
def generateClusterTitle (topic framingType : String) : String :=
  let topicTitle := (topicTitles.lookup topic).getD topic
  let framingTitle := (framingTitles.lookup framingType).getD framingType
  topicTitle ++ ": " ++ framingTitle

/-- The fresh cluster record created when `clusters[clusterKey]` is absent
(`narratives.ts`, `clusterNarratives`). -/
def freshCluster (clusterKey primaryTopic framingType : String) : NarrativeCluster :=
  { id := generateClusterId clusterKey
    topic := primaryTopic
    framingType := framingType
    title := generateClusterTitle primaryTopic framingType
    articles := []
    representativeArticle := none
    biasDistribution := { left := 0, center := 0, right := 0 }
    avgScores := { ideologicalStance := 0, factualGrounding := 0,
                   framingChoices := 0, emotionalTone := 0,
                   sourceTransparency := 0 }
    commonPhrases := []
    sourceCount := []
    timeSpan := { earliest := none, latest := none } }

/-- `m[k] = (m[k] || 0) + 1` on an insertion-ordered string-keyed object. -/
def bumpCount (m : List (String × Nat)) (k : String) : List (String × Nat) :=
  match m with
  | [] => [(k, 1)]
  | (k', n) :: rest => if k' = k then (k', n + 1) :: rest else (k', n) :: bumpCount rest k

/-- Per-article mutation of its cluster in the accumulation loop of
`clusterNarratives`: push the member, tally the bias distribution (the JS
`score || 50` default turns a zero score into 50), count phrases and the
source, and widen the time span. -/
def addArticleToCluster (article : Article) (bs : BiasScores)
    (c : NarrativeCluster) : NarrativeCluster :=
  let ideologyScore :=
    if bs.ideologicalStance.score = 0 then 50 else bs.ideologicalStance.score
  let dist :=
    if ideologyScore < 40 then
      { c.biasDistribution with left := c.biasDistribution.left + 1 }
    else if ideologyScore > 60 then
      { c.biasDistribution with right := c.biasDistribution.right + 1 }
    else
      { c.biasDistribution with center := c.biasDistribution.center + 1 }
  { c with
    articles := c.articles ++ [article]
    biasDistribution := dist
    commonPhrases := bs.ideologicalStance.highlightedPhrases.foldl bumpCount c.commonPhrases
    sourceCount := bumpCount c.sourceCount article.source
    timeSpan :=
      { earliest :=
          match c.timeSpan.earliest with
          | none => some article.publishedAt
          | some e => if article.publishedAt < e then some article.publishedAt else some e
        latest :=
          match c.timeSpan.latest with
          | none => some article.publishedAt
          | some l => if article.publishedAt > l then some article.publishedAt else some l } }

/-- Replace the value at key `k` (JS mutation of `clusters[clusterKey]`). -/
def updateAssoc (k : String) (f : NarrativeCluster → NarrativeCluster) :
    List (String × NarrativeCluster) → List (String × NarrativeCluster)
  | [] => []
  | (k', c) :: rest =>
      if k' = k then (k', f c) :: rest else (k', c) :: updateAssoc k f rest

/-- One iteration of the `articles.forEach` accumulation loop of
`clusterNarratives`: skip unanalyzed articles, derive the cluster key,
create the cluster if absent (insertion order: appended), then mutate it. -/
def clusterStep (acc : List (String × NarrativeCluster)) (article : Article) :
    List (String × NarrativeCluster) :=
  match article.biasScores with
  | none => acc
  | some bs =>
      let topics := extractTopics (article.headline ++ " " ++ article.content)
      let primaryTopic := topics.headD "general"
      let framingType := detectFramingType article
      let clusterKey := primaryTopic ++ "_" ++ framingType
      let acc' :=
        if (acc.lookup clusterKey).isSome then acc
        else acc ++ [(clusterKey, freshCluster clusterKey primaryTopic framingType)]
      updateAssoc clusterKey (addArticleToCluster article bs) acc'

/-- Dimension accessors, in the order of the JS dimension-name array. -/
def dimensions : List (BiasScores → BiasScore) :=
  [BiasScores.ideologicalStance, BiasScores.factualGrounding,
   BiasScores.framingChoices, BiasScores.emotionalTone,
   BiasScores.sourceTransparency]

/-- The score an article contributes for one dimension in the averaging and
distance loops (`biasScore?.score || 0`). -/
def dimScoreOf (get : BiasScores → BiasScore) (a : Article) : Nat :=
  match a.biasScores with
  | some bs => (get bs).score
  | none => 0

/-- `Math.round(sum / articleCount)` over the members' scores of one
dimension; for nonnegative operands `Math.round x = ⌊x + 1/2⌋`, which on
naturals is `(2·sum + n) / (2·n)`. -/
def avgDimScore (arts : List Article) (get : BiasScores → BiasScore) : Nat :=
  let sum := arts.foldl (fun acc a => acc + dimScoreOf get a) 0
  (2 * sum + arts.length) / (2 * arts.length)

/-- The `avgScores` record computed in the post-processing pass. -/
def computeAvgScores (arts : List Article) : AvgScores :=
  { ideologicalStance := avgDimScore arts BiasScores.ideologicalStance
    factualGrounding := avgDimScore arts BiasScores.factualGrounding
    framingChoices := avgDimScore arts BiasScores.framingChoices
    emotionalTone := avgDimScore arts BiasScores.emotionalTone
    sourceTransparency := avgDimScore arts BiasScores.sourceTransparency }

/-- Squared-deviation distance of a member from the cluster averages
(`findRepresentativeArticle`'s inner loop). -/
def distanceTo (avg : AvgScores) (a : Article) : ℤ :=
  let d (get : BiasScores → BiasScore) (avgVal : Nat) : ℤ :=
    ((dimScoreOf get a : ℤ) - (avgVal : ℤ)) ^ 2
  d BiasScores.ideologicalStance avg.ideologicalStance +
  d BiasScores.factualGrounding avg.factualGrounding +
  d BiasScores.framingChoices avg.framingChoices +
  d BiasScores.emotionalTone avg.emotionalTone +
  d BiasScores.sourceTransparency avg.sourceTransparency

/-- One iteration of `findRepresentativeArticle`'s loop; the second
component is `smallestDistance`, with `none` standing for `Infinity`. -/
def repStep (avg : AvgScores) (acc : Option Article × Option ℤ) (a : Article) :
    Option Article × Option ℤ :=
  match a.biasScores with
  | none => acc
  | some _ =>
      let d := distanceTo avg a
      match acc.2 with
      | none => (some a, some d)
      | some sm => if d < sm then (some a, some d) else acc

/-- `findRepresentativeArticle` (`narratives.ts`): starts from
`articles[0] || null` and `Infinity`, keeps the first strict improvement. -/
def findRepresentativeArticle (c : NarrativeCluster) : Option Article :=
  (c.articles.foldl (repStep c.avgScores) (c.articles.head?, none)).1

/-- Post-processing of one cluster: averages first, then the
representative (computed against the just-written averages). -/
def finalizeCluster (c : NarrativeCluster) : NarrativeCluster :=
  let c' := { c with avgScores := computeAvgScores c.articles }
  { c' with representativeArticle := findRepresentativeArticle c' }

/-- Ranking key: `articles.length * Object.keys(sourceCount).length`. -/
def clusterScore (c : NarrativeCluster) : Nat :=
  c.articles.length * c.sourceCount.length

/-- The descending comparator `(a, b) => scoreB - scoreA` as a relation. -/
def clusterGE (a b : NarrativeCluster) : Prop := clusterScore b ≤ clusterScore a

instance : DecidableRel clusterGE := fun _ _ => Nat.decLe _ _

/-- `clusterNarratives` (`narratives.ts`): accumulate clusters keyed by
topic/framing, post-process, drop singletons, sort descending by
relevance (JS `Array.prototype.sort` is stable; insertion sort over the
same total preorder), and keep the top 8. -/
def clusterNarratives (articles : List Article) : List NarrativeCluster :=
  (((((articles.foldl clusterStep []).map fun p => finalizeCluster p.2).filter
      fun c => c.articles.length ≥ 2).insertionSort clusterGE).take 8)

/-! ### Bounded-concurrency executor (`mapWithConcurrency`, `articles.ts`)

The executor allocates `new Array(arr.length)` of empty slots, launches the
per-item promises under the concurrency limit, and on each settlement either
writes `results[idx] = r` (fulfilment) or catches the rejection, logs it and
leaves the slot untouched.  An asynchronous operation is modelled as
`worker : α → Nat → Option β` (`none` = rejection), and a run of the
executor is parametrised by the completion schedule `order` — the sequence
in which the launched tasks settle, an arbitrary permutation of the indices
(whatever interleaving the concurrency limit produces). -/

/-- The settlement value of task `idx` (`worker(arr[idx], idx)`). -/
def taskResult (arr : List α) (worker : α → Nat → Option β) (idx : Nat) :
    Option β :=
  match arr[idx]? with
  | some a => worker a idx
  | none => none

/-- Effect of one settled task on the slot array: a fulfilled task writes
its own slot, a rejected one is caught and writes nothing. -/
def slotWrite (arr : List α) (worker : α → Nat → Option β)
    (slots : List (Option β)) (idx : Nat) : List (Option β) :=
  match taskResult arr worker idx with
  | some r => slots.set idx (some r)
  | none => slots

/-- `mapWithConcurrency` (`articles.ts`) under completion schedule `order`:
the pre-sized hole array after every task has settled. -/
def mapWithConcurrency (arr : List α) (worker : α → Nat → Option β)
    (order : List Nat) : List (Option β) :=
  order.foldl (slotWrite arr worker) (List.replicate arr.length none)

theorem slotWrite_length (arr : List α) (worker : α → Nat → Option β)
    (slots : List (Option β)) (idx : Nat) :
    (slotWrite arr worker slots idx).length = slots.length := by
  unfold slotWrite
  cases taskResult arr worker idx <;> simp

theorem foldl_slotWrite_length (arr : List α) (worker : α → Nat → Option β) :
    ∀ (order : List Nat) (slots : List (Option β)),
      (order.foldl (slotWrite arr worker) slots).length = slots.length
  | [], _ => rfl
  | j :: rest, slots => by
      rw [List.foldl_cons, foldl_slotWrite_length arr worker rest,
        slotWrite_length]

theorem foldl_slotWrite_of_ne (arr : List α) (worker : α → Nat → Option β)
    (i : Nat) :
    ∀ (order : List Nat) (slots : List (Option β)), (∀ j ∈ order, j ≠ i) →
      (order.foldl (slotWrite arr worker) slots)[i]? = slots[i]?
  | [], _, _ => rfl
  | j :: rest, slots, h => by
      rw [List.foldl_cons,
        foldl_slotWrite_of_ne arr worker i rest _
          (fun k hk => h k (List.mem_cons_of_mem j hk))]
      unfold slotWrite
      cases taskResult arr worker j with
      | none => rfl
      | some r => exact List.getElem?_set_ne (h j (List.mem_cons_self j rest))

theorem foldl_slotWrite_of_fail (arr : List α) (worker : α → Nat → Option β)
    (i : Nat) (hfail : taskResult arr worker i = none) :
    ∀ (order : List Nat) (slots : List (Option β)),
      (order.foldl (slotWrite arr worker) slots)[i]? = slots[i]?
  | [], _ => rfl
  | j :: rest, slots => by
      rw [List.foldl_cons, foldl_slotWrite_of_fail arr worker i hfail rest]
      unfold slotWrite
      cases htj : taskResult arr worker j with
      | none => rfl
      | some r =>
          refine List.getElem?_set_ne (fun hji => ?_)
          rw [hji, hfail] at htj
          exact Option.noConfusion htj

theorem foldl_slotWrite_of_mem (arr : List α) (worker : α → Nat → Option β)
    (i : Nat) (r : β) (hres : taskResult arr worker i = some r) :
    ∀ (order : List Nat) (slots : List (Option β)),
      i ∈ order → i < slots.length →
      (order.foldl (slotWrite arr worker) slots)[i]? = some (some r)
  | [], _, hmem, _ => absurd hmem (List.not_mem_nil i)
  | j :: rest, slots, hmem, hlen => by
      rw [List.foldl_cons]
      by_cases hir : i ∈ rest
      · exact foldl_slotWrite_of_mem arr worker i r hres rest _ hir
          (by rw [slotWrite_length]; exact hlen)
      · have hij : i = j := by
          cases List.mem_cons.mp hmem with
          | inl h => exact h
          | inr h => exact absurd h hir
        rw [foldl_slotWrite_of_ne arr worker i rest _
            (fun k hk heq => hir (heq ▸ hk))]
        subst hij
        unfold slotWrite
        rw [hres]
        exact List.getElem?_set_eq_of_lt (some r) hlen

/-- C1.  The bounded-concurrency executor, run under any completion
schedule (any permutation of the task indices), returns a slot array of
the input's length in which slot `i` holds exactly the outcome of the
operation on input item `i`: `some r` when that operation fulfilled with
`r`, and the empty hole `none` when it rejected.  In particular a failing
item neither aborts the batch nor disturbs any sibling slot, and the
result is independent of the completion order. -/
theorem mapWithConcurrency_ordered (arr : List α)
    (worker : α → Nat → Option β) (order : List Nat)
    (hperm : List.Perm order (List.range arr.length)) :
    (mapWithConcurrency arr worker order).length = arr.length ∧
    ∀ i, (h : i < arr.length) →
      (mapWithConcurrency arr worker order)[i]? =
        some (worker (arr.get ⟨i, h⟩) i) := by
  constructor
  · rw [mapWithConcurrency, foldl_slotWrite_length, List.length_replicate]
  · intro i h
    have hmem : i ∈ order := hperm.mem_iff.mpr (List.mem_range.mpr h)
    have htask : taskResult arr worker i = worker (arr.get ⟨i, h⟩) i := by
      rw [taskResult, List.getElem?_eq_getElem h]
      rfl
    cases hw : worker (arr.get ⟨i, h⟩) i with
    | none =>
        rw [mapWithConcurrency,
          foldl_slotWrite_of_fail arr worker i (by rw [htask, hw])]
        simp [List.getElem?_replicate, h]
    | some r =>
        rw [mapWithConcurrency,
          foldl_slotWrite_of_mem arr worker i r (by rw [htask, hw]) order _
            hmem (by rw [List.length_replicate]; exact h)]

/-- The chosen per-item operation for the C1 witness run: the item `20`
rejects, the others fulfil with item + index. -/
def exWorker : Nat → Nat → Option Nat :=
  fun a i => if a = 20 then none else some (a + i)

/-- Witness for C1: a concrete three-item batch whose middle task fails,
settled in the schedule `[2, 0, 1]`. -/
theorem mapWithConcurrency_ordered_witness :
    (mapWithConcurrency [10, 20, 30] exWorker [2, 0, 1]).length =
      [10, 20, 30].length ∧
    ∀ i, (h : i < [10, 20, 30].length) →
      (mapWithConcurrency [10, 20, 30] exWorker [2, 0, 1])[i]? =
        some (exWorker ([10, 20, 30].get ⟨i, h⟩) i) :=
  mapWithConcurrency_ordered [10, 20, 30] exWorker [2, 0, 1] (by decide)

/-! ### Invariants of the clustering accumulation loop -/

/-- The raw ideological-stance score of an article (`0` when unanalyzed). -/
def stanceScore (a : Article) : Nat :=
  match a.biasScores with
  | some bs => bs.ideologicalStance.score
  | none => 0

/-- The value the tally loop actually compares:
`article.biasScores?.ideologicalStance?.score || 50`; the JS `||` replaces
a zero (falsy) score by the neutral default `50`. -/
def effectiveStance (a : Article) : Nat :=
  if stanceScore a = 0 then 50 else stanceScore a

/-- Number of distinct sources among a cluster's members. -/
def distinctSourceCount (c : NarrativeCluster) : Nat :=
  ((c.articles.map fun a => a.source).dedup).length

/-- Invariant carried by every keyed cluster in the accumulation loop:
tally counts agree with member counts per stance band, every member is
analyzed, the id is the hash of the topic/framing key, the key is that
very concatenation, and the `sourceCount` keys are exactly the distinct
member sources. -/
def ClusterInv (p : String × NarrativeCluster) : Prop :=
  p.2.biasDistribution.left =
    p.2.articles.countP (fun a => effectiveStance a < 40) ∧
  p.2.biasDistribution.right =
    p.2.articles.countP (fun a => 60 < effectiveStance a) ∧
  p.2.biasDistribution.center =
    p.2.articles.countP
      (fun a => 40 ≤ effectiveStance a ∧ effectiveStance a ≤ 60) ∧
  (∀ a ∈ p.2.articles, a.biasScores.isSome = true) ∧
  p.2.id = generateClusterId (p.2.topic ++ "_" ++ p.2.framingType) ∧
  p.1 = p.2.topic ++ "_" ++ p.2.framingType ∧
  (p.2.sourceCount.map Prod.fst).Nodup ∧
  (∀ s, s ∈ p.2.sourceCount.map Prod.fst ↔
    s ∈ p.2.articles.map fun a => a.source)

theorem bumpCount_keys (k : String) : ∀ (m : List (String × Nat)),
    (bumpCount m k).map Prod.fst =
      if k ∈ m.map Prod.fst then m.map Prod.fst
      else m.map Prod.fst ++ [k]
  | [] => by simp [bumpCount]
  | (k', n) :: rest => by
      by_cases h : k' = k
      · subst h
        simp [bumpCount]
      · simp only [bumpCount, if_neg h, List.map_cons]
        rw [bumpCount_keys k rest]
        by_cases hm : k ∈ rest.map Prod.fst
        · rw [if_pos hm, if_pos (by simp [hm])]
        · rw [if_neg hm, if_neg (by simp [hm, Ne.symm h])]
          rfl

theorem clusterInv_addArticle (k : String) (article : Article)
    (bs : BiasScores) (hbs : article.biasScores = some bs)
    (c : NarrativeCluster) (h : ClusterInv (k, c)) :
    ClusterInv (k, addArticleToCluster article bs c) := by
  obtain ⟨hl, hr, hc, hsome, hid, hkey, hnd, hmem⟩ := h
  have heff : effectiveStance article =
      (if bs.ideologicalStance.score = 0 then 50
       else bs.ideologicalStance.score) := by
    simp [effectiveStance, stanceScore, hbs]
  refine ⟨?_, ?_, ?_, ?_, ?_, ?_, ?_, ?_⟩
  · simp only [addArticleToCluster, List.countP_append, List.countP_cons,
      List.countP_nil]
    split_ifs with h40 h60 <;>
      simp_all [heff, hl, Nat.not_lt.mp, le_of_not_lt] <;> omega
  · simp only [addArticleToCluster, List.countP_append, List.countP_cons,
      List.countP_nil]
    split_ifs with h40 h60 <;> simp_all [heff] <;> omega
  · simp only [addArticleToCluster, List.countP_append, List.countP_cons,
      List.countP_nil]
    split_ifs with h40 h60 <;> simp_all [heff] <;> omega
  · intro a ha
    simp only [addArticleToCluster, List.mem_append, List.mem_singleton] at ha
    cases ha with
    | inl h => exact hsome a h
    | inr h => subst h; simp [hbs]
  · exact hid
  · exact hkey
  · rw [addArticleToCluster]
    simp only
    rw [bumpCount_keys]
    split_ifs with hsrc
    · exact hnd
    · simp only [List.nodup_append, List.nodup_cons, List.nodup_nil]
      exact ⟨hnd, by simp, by simpa using hsrc⟩
  · intro s
    rw [addArticleToCluster]
    simp only
    rw [bumpCount_keys]
    split_ifs with hsrc
    · simp only [List.map_append, List.map_cons, List.map_nil,
        List.mem_append, List.mem_singleton]
      rw [hmem s]
      constructor
      · intro h; exact Or.inl h
      · intro h
        cases h with
        | inl h => exact h
        | inr h => rw [h]; exact (hmem article.source).mp hsrc
    · simp only [List.mem_append, List.mem_singleton, List.map_append,
        List.map_cons, List.map_nil]
      rw [hmem s]

theorem updateAssoc_inv {P : String × NarrativeCluster → Prop} (k : String)
    (f : NarrativeCluster → NarrativeCluster)
    (hf : ∀ c, P (k, c) → P (k, f c)) :
    ∀ (l : List (String × NarrativeCluster)), (∀ p ∈ l, P p) →
      ∀ p ∈ updateAssoc k f l, P p
  | [], _, p, hp => absurd hp (List.not_mem_nil p)
  | (k', c) :: rest, hl, p, hp => by
      by_cases hk : k' = k
      · subst hk
        simp only [updateAssoc, if_pos rfl] at hp
        cases List.mem_cons.mp hp with
        | inl h =>
            subst h
            exact hf c (hl (k', c) (List.mem_cons_self _ _))
        | inr h => exact hl p (List.mem_cons_of_mem _ h)
      · simp only [updateAssoc, if_neg hk] at hp
        cases List.mem_cons.mp hp with
        | inl h => subst h; exact hl _ (List.mem_cons_self _ _)
        | inr h =>
            exact updateAssoc_inv k f hf rest
              (fun q hq => hl q (List.mem_cons_of_mem _ hq)) p h

theorem clusterInv_fresh (primaryTopic framingType : String) :
    ClusterInv (primaryTopic ++ "_" ++ framingType,
      freshCluster (primaryTopic ++ "_" ++ framingType)
        primaryTopic framingType) := by
  unfold ClusterInv freshCluster
  simp

theorem clusterStep_inv (acc : List (String × NarrativeCluster))
    (article : Article) (h : ∀ p ∈ acc, ClusterInv p) :
    ∀ p ∈ clusterStep acc article, ClusterInv p := by
  intro p hp
  cases hbs : article.biasScores with
  | none =>
      simp only [clusterStep, hbs] at hp
      exact h p hp
  | some bs =>
      simp only [clusterStep, hbs] at hp
      refine updateAssoc_inv _ _
        (fun c hc => clusterInv_addArticle _ article bs hbs c hc) _ ?_ p hp
      intro q hq
      split_ifs at hq with hfound
      · exact h q hq
      · rw [List.mem_append, List.mem_singleton] at hq
        cases hq with
        | inl hq => exact h q hq
        | inr hq =>
            subst hq
            exact clusterInv_fresh _ _

theorem foldl_clusterStep_inv :
    ∀ (arts : List Article) (acc : List (String × NarrativeCluster)),
      (∀ p ∈ acc, ClusterInv p) →
      ∀ p ∈ arts.foldl clusterStep acc, ClusterInv p
  | [], _, h => h
  | a :: rest, acc, h =>
      foldl_clusterStep_inv rest _ (clusterStep_inv acc a h)

theorem finalizeCluster_articles (c : NarrativeCluster) :
    (finalizeCluster c).articles = c.articles := rfl

theorem finalizeCluster_biasDistribution (c : NarrativeCluster) :
    (finalizeCluster c).biasDistribution = c.biasDistribution := rfl

theorem finalizeCluster_id (c : NarrativeCluster) :
    (finalizeCluster c).id = c.id := rfl

theorem finalizeCluster_topic (c : NarrativeCluster) :
    (finalizeCluster c).topic = c.topic := rfl

theorem finalizeCluster_framingType (c : NarrativeCluster) :
    (finalizeCluster c).framingType = c.framingType := rfl

theorem finalizeCluster_sourceCount (c : NarrativeCluster) :
    (finalizeCluster c).sourceCount = c.sourceCount := rfl

theorem finalizeCluster_avgScores (c : NarrativeCluster) :
    (finalizeCluster c).avgScores = computeAvgScores c.articles := rfl

theorem finalizeCluster_representative (c : NarrativeCluster) :
    (finalizeCluster c).representativeArticle =
      findRepresentativeArticle { c with avgScores := computeAvgScores c.articles } := rfl

/-- Every published cluster is the finalization of an accumulated cluster
satisfying `ClusterInv`, and passed the two-member filter. -/
theorem mem_clusterNarratives {arts : List Article} {c : NarrativeCluster}
    (h : c ∈ clusterNarratives arts) :
    ∃ k c₀, ClusterInv (k, c₀) ∧ c = finalizeCluster c₀ ∧
      2 ≤ c.articles.length := by
  unfold clusterNarratives at h
  have h1 := (List.mem_insertionSort clusterGE).mp (List.take_subset _ _ h)
  obtain ⟨h2, hpred⟩ := List.mem_filter.mp h1
  obtain ⟨p, hpmem, hpc⟩ := List.mem_map.mp h2
  refine ⟨p.1, p.2, ?_, hpc.symm, by simpa using hpred⟩
  exact foldl_clusterStep_inv arts []
    (fun q hq => absurd hq (List.not_mem_nil q)) p hpmem

/-! ### Representative selection -/

/-- The first-encountered member minimising `f` (the spec's tie-breaking:
on equal values the earlier member wins). -/
def firstMinBy (f : Article → ℤ) : List Article → Option Article
  | [] => none
  | a :: l =>
      match firstMinBy f l with
      | none => some a
      | some b => if f a ≤ f b then some a else some b

theorem firstMinBy_cons (f : Article → ℤ) (a : Article) (l : List Article) :
    firstMinBy f (a :: l) =
      match firstMinBy f l with
      | none => some a
      | some b => if f a ≤ f b then some a else some b := rfl

theorem firstMinBy_cons_of_none {f : Article → ℤ} {l : List Article}
    (a : Article) (hl : firstMinBy f l = none) :
    firstMinBy f (a :: l) = some a := by
  rw [firstMinBy_cons, hl]

theorem firstMinBy_cons_of_some {f : Article → ℤ} {l : List Article}
    {b : Article} (a : Article) (hl : firstMinBy f l = some b) :
    firstMinBy f (a :: l) = if f a ≤ f b then some a else some b := by
  rw [firstMinBy_cons, hl]

theorem firstMinBy_eq_none (f : Article → ℤ) :
    ∀ (l : List Article), firstMinBy f l = none → l = []
  | [], _ => rfl
  | a :: l, h => by
      cases hl : firstMinBy f l with
      | none =>
          rw [firstMinBy_cons_of_none a hl] at h
          exact Option.noConfusion h
      | some b =>
          rw [firstMinBy_cons_of_some a hl] at h
          split_ifs at h

theorem firstMinBy_mem (f : Article → ℤ) :
    ∀ (l : List Article) (b : Article), firstMinBy f l = some b → b ∈ l
  | [], _, h => Option.noConfusion h
  | a :: l, b, h => by
      cases hl : firstMinBy f l with
      | none =>
          rw [firstMinBy_cons_of_none a hl, Option.some_inj] at h
          rw [← h]
          exact List.mem_cons_self a l
      | some c =>
          rw [firstMinBy_cons_of_some a hl] at h
          split_ifs at h <;> rw [Option.some_inj] at h <;> rw [← h]
          · exact List.mem_cons_self a l
          · exact List.mem_cons_of_mem a (firstMinBy_mem f l c hl)

theorem firstMinBy_le (f : Article → ℤ) :
    ∀ (l : List Article) (b : Article), firstMinBy f l = some b →
      ∀ x ∈ l, f b ≤ f x
  | [], _, _, _, hx => absurd hx (List.not_mem_nil _)
  | a :: l, b, h, x, hx => by
      cases hl : firstMinBy f l with
      | none =>
          rw [firstMinBy_cons_of_none a hl, Option.some_inj] at h
          rw [firstMinBy_eq_none f l hl] at hx
          rw [← h]
          obtain rfl := List.mem_singleton.mp hx
          exact le_refl _
      | some c =>
          rw [firstMinBy_cons_of_some a hl] at h
          have hc := firstMinBy_le f l c hl
          split_ifs at h with hac <;> rw [Option.some_inj] at h <;> rw [← h]
          · rcases List.mem_cons.mp hx with rfl | hxl
            · exact le_refl _
            · exact le_trans hac (hc x hxl)
          · rcases List.mem_cons.mp hx with rfl | hxl
            · exact le_of_lt (lt_of_not_le hac)
            · exact hc x hxl

theorem firstMinBy_split (f : Article → ℤ) :
    ∀ (l : List Article) (b : Article), firstMinBy f l = some b →
      ∃ l₁ l₂, l = l₁ ++ b :: l₂ ∧ ∀ x ∈ l₁, f b < f x
  | [], _, h => Option.noConfusion h
  | a :: l, b, h => by
      cases hl : firstMinBy f l with
      | none =>
          rw [firstMinBy_cons_of_none a hl, Option.some_inj] at h
          rw [← h]
          exact ⟨[], l, rfl, fun x hx => absurd hx (List.not_mem_nil x)⟩
      | some c =>
          rw [firstMinBy_cons_of_some a hl] at h
          split_ifs at h with hac <;> rw [Option.some_inj] at h <;> rw [← h]
          · exact ⟨[], l, rfl, fun x hx => absurd hx (List.not_mem_nil x)⟩
          · obtain ⟨l₁, l₂, hsplit, hlt⟩ := firstMinBy_split f l c hl
            refine ⟨a :: l₁, l₂, by rw [hsplit]; rfl, ?_⟩
            intro x hx
            rcases List.mem_cons.mp hx with rfl | hxl
            · exact lt_of_not_le hac
            · exact hlt x hxl

/-- The strict-improvement scan done by `findRepresentativeArticle` once a
candidate and a finite smallest distance are in hand. -/
def selectStrict (avg : AvgScores) (a : Article) (d : ℤ) :
    List Article → Article × ℤ
  | [] => (a, d)
  | x :: xs =>
      if distanceTo avg x < d then selectStrict avg x (distanceTo avg x) xs
      else selectStrict avg a d xs

theorem foldl_repStep_some (avg : AvgScores) :
    ∀ (l : List Article) (a : Article) (d : ℤ),
      (∀ x ∈ l, x.biasScores.isSome = true) →
      l.foldl (repStep avg) (some a, some d) =
        (some (selectStrict avg a d l).1, some (selectStrict avg a d l).2)
  | [], _, _, _ => rfl
  | x :: xs, a, d, h => by
      obtain ⟨bs, hbs⟩ :=
        Option.isSome_iff_exists.mp (h x (List.mem_cons_self x xs))
      have hrest := fun y hy => h y (List.mem_cons_of_mem x hy)
      rw [List.foldl_cons]
      by_cases hd : distanceTo avg x < d
      · rw [show repStep avg (some a, some d) x =
            (some x, some (distanceTo avg x)) by
          simp [repStep, hbs, hd]]
        rw [foldl_repStep_some avg xs x (distanceTo avg x) hrest]
        simp [selectStrict, hd]
      · rw [show repStep avg (some a, some d) x = (some a, some d) by
          simp [repStep, hbs, hd]]
        rw [foldl_repStep_some avg xs a d hrest]
        simp [selectStrict, hd]

theorem selectStrict_eq_firstMinBy (avg : AvgScores) :
    ∀ (l : List Article) (a : Article),
      firstMinBy (distanceTo avg) (a :: l) =
        some (selectStrict avg a (distanceTo avg a) l).1
  | [], _ => rfl
  | x :: xs, a => by
      by_cases hd : distanceTo avg x < distanceTo avg a
      · rw [show selectStrict avg a (distanceTo avg a) (x :: xs) =
            selectStrict avg x (distanceTo avg x) xs by
          simp [selectStrict, hd]]
        rw [← selectStrict_eq_firstMinBy avg xs x]
        cases hx : firstMinBy (distanceTo avg) (x :: xs) with
        | none => exact absurd (firstMinBy_eq_none _ _ hx) (by simp)
        | some b =>
            have hble := firstMinBy_le _ _ _ hx x (List.mem_cons_self x xs)
            rw [firstMinBy_cons_of_some a hx,
              if_neg (not_le.mpr (lt_of_le_of_lt hble hd))]
      · have ha := not_lt.mp hd
        rw [show selectStrict avg a (distanceTo avg a) (x :: xs) =
            selectStrict avg a (distanceTo avg a) xs by
          simp [selectStrict, hd]]
        rw [← selectStrict_eq_firstMinBy avg xs a]
        cases hxs : firstMinBy (distanceTo avg) xs with
        | none =>
            rw [firstMinBy_cons_of_some a (firstMinBy_cons_of_none x hxs),
              if_pos ha, firstMinBy_cons_of_none a hxs]
        | some b =>
            have h1 := firstMinBy_cons_of_some (b := b) x hxs
            by_cases hxb : distanceTo avg x ≤ distanceTo avg b
            · rw [firstMinBy_cons_of_some a (h1.trans (if_pos hxb)),
                if_pos ha, firstMinBy_cons_of_some a hxs,
                if_pos (le_trans ha hxb)]
            · rw [firstMinBy_cons_of_some a (h1.trans (if_neg hxb)),
                firstMinBy_cons_of_some a hxs]


/-- A bias dimension with the given score (concrete test data). -/
def mkScore (n : Nat) : BiasScore :=
  { score := n, label := "", confidence := 1, highlightedPhrases := [],
    reasoning := "", confidenceInterval := none }

/-- A five-dimension payload with the given scores (concrete test data). -/
def mkScores (i f fr e s : Nat) : BiasScores :=
  { ideologicalStance := mkScore i, factualGrounding := mkScore f,
    framingChoices := mkScore fr, emotionalTone := mkScore e,
    sourceTransparency := mkScore s, overallBiasLevel := 50,
    primarySources := [], analyzedAt := "",
    analysisStatus := some AnalysisStatus.ai, isFallback := some false }

/-- A concrete article (test data). -/
def mkArticle (id headline content source : String)
    (bs : Option BiasScores) : Article :=
  { id := id, headline := headline, content := content, description := "",
    source := source, author := "", publishedAt := 0, url := "",
    urlToImage := "", biasScores := bs, narrativeCluster := none,
    primarySources := [] }

/-- Three same-bucket climate/policy articles and one singleton. -/
def exA1 : Article := mkArticle "a1" "climate" "policy" "srcA" (some (mkScores 30 40 50 60 70))

def exA2 : Article := mkArticle "a2" "climate" "policy" "srcB" (some (mkScores 35 45 55 65 75))

def exA3 : Article := mkArticle "a3" "climate" "policy" "srcC" (some (mkScores 80 50 50 50 50))

def exB1 : Article := mkArticle "b1" "ukraine" "justice" "srcA" (some (mkScores 50 50 50 50 50))

def exArticles : List Article := [exA1, exA2, exA3, exB1]

/-- Two articles whose ideological-stance score is exactly `0`. -/
def exZ1 : Article := mkArticle "z1" "zz" "ww" "s1" (some (mkScores 0 50 50 50 50))

def exZ2 : Article := mkArticle "z2" "zz" "ww" "s2" (some (mkScores 0 50 50 50 50))

/-- A keyword-free article whose emotional-tone score is exactly `0`. -/
def exTone0 : Article := mkArticle "t0" "hello" "world" "s" (some (mkScores 50 50 50 0 50))

theorem findRep_eq_firstMinBy (c : NarrativeCluster)
    (hne : c.articles ≠ [])
    (hsome : ∀ x ∈ c.articles, x.biasScores.isSome = true) :
    findRepresentativeArticle c =
      firstMinBy (distanceTo c.avgScores) c.articles := by
  obtain ⟨a, rest, hc⟩ := List.exists_cons_of_ne_nil hne
  obtain ⟨bs, hbs⟩ := Option.isSome_iff_exists.mp
    (hsome a (hc ▸ List.mem_cons_self a rest))
  have hrest : ∀ x ∈ rest, x.biasScores.isSome = true :=
    fun x hx => hsome x (hc ▸ List.mem_cons_of_mem a hx)
  rw [findRepresentativeArticle, hc]
  simp only [List.head?_cons, List.foldl_cons]
  rw [show repStep c.avgScores (some a, none) a =
      (some a, some (distanceTo c.avgScores a)) by simp [repStep, hbs]]
  rw [foldl_repStep_some c.avgScores rest a _ hrest]
  rw [selectStrict_eq_firstMinBy c.avgScores rest a]

/-! ### Arithmetic facts about the per-dimension averages -/

theorem avgDimScore_eq_jsRound (arts : List Article) (hne : arts ≠ [])
    (get : BiasScores → BiasScore) :
    (avgDimScore arts get : ℤ) =
      jsRound (((arts.map (dimScoreOf get)).sum : ℚ) / arts.length) := by
  have hn : arts.length ≠ 0 := fun h0 => hne (List.length_eq_zero.mp h0)
  have hsum : arts.foldl (fun acc a => acc + dimScoreOf get a) 0 =
      (arts.map (dimScoreOf get)).sum := by
    rw [List.sum_eq_foldl, List.foldl_map]
  simp only [avgDimScore]
  rw [hsum]
  have h : (((arts.map (dimScoreOf get)).sum : ℚ)) / (arts.length : ℚ) + 1/2 =
      ((2 * (arts.map (dimScoreOf get)).sum + arts.length : ℕ) : ℚ) /
        ((2 * arts.length : ℕ) : ℚ) := by
    have hn' : (arts.length : ℚ) ≠ 0 := Nat.cast_ne_zero.mpr hn
    push_cast
    field_simp
    ring
  rw [jsRound, h, Rat.floor_natCast_div_natCast, Int.ofNat_ediv]

theorem countP_stance_partition (l : List Article) :
    l.countP (fun a => effectiveStance a < 40) +
      l.countP (fun a => 40 ≤ effectiveStance a ∧ effectiveStance a ≤ 60) +
      l.countP (fun a => 60 < effectiveStance a) = l.length := by
  induction l with
  | nil => rfl
  | cons a t ih =>
      simp only [List.countP_cons, List.length_cons]
      by_cases h1 : effectiveStance a < 40
      · have h2 : ¬ 60 < effectiveStance a := by omega
        have h3 : ¬ (40 ≤ effectiveStance a ∧ effectiveStance a ≤ 60) := by
          omega
        rw [if_pos (by simp [h1]), if_neg (by simp [h3]),
          if_neg (by simp [h2])]
        omega
      · by_cases h2 : 60 < effectiveStance a
        · have h3 : ¬ (40 ≤ effectiveStance a ∧ effectiveStance a ≤ 60) := by
            omega
          rw [if_neg (by simp [h1]), if_neg (by simp [h3]),
            if_pos (by simp [h2])]
          omega
        · have h3 : 40 ≤ effectiveStance a ∧ effectiveStance a ≤ 60 := by
            omega
          rw [if_neg (by simp [h1]), if_pos (by simp [h3]),
            if_neg (by simp [h2])]
          omega

theorem length_eq_dedup_length_of_nodup {l₁ l₂ : List String}
    (h₁ : l₁.Nodup) (hm : ∀ s, s ∈ l₁ ↔ s ∈ l₂) :
    l₁.length = l₂.dedup.length := by
  rw [← List.toFinset_card_of_nodup h₁,
    ← List.toFinset_card_of_nodup l₂.nodup_dedup]
  congr 1
  ext a
  simp only [List.mem_toFinset, List.mem_dedup]
  exact hm a

theorem sourceCount_length_of_mem {arts : List Article}
    {c : NarrativeCluster} (h : c ∈ clusterNarratives arts) :
    c.sourceCount.length = distinctSourceCount c := by
  obtain ⟨k, c₀, hinv, hceq, -⟩ := mem_clusterNarratives h
  obtain ⟨-, -, -, -, -, -, hnd, hmem⟩ := hinv
  subst hceq
  rw [finalizeCluster_sourceCount]
  unfold distinctSourceCount
  rw [finalizeCluster_articles]
  have hlen := length_eq_dedup_length_of_nodup hnd hmem
  rw [List.length_map] at hlen
  exact hlen

/-! ### The claims about the clustering engine -/

/-- C2.  For every published cluster, the bias-distribution tally sums to
the member count: each member increments exactly one of the three
counters. -/
theorem cluster_biasDistribution_sum {arts : List Article}
    {c : NarrativeCluster} (h : c ∈ clusterNarratives arts) :
    c.biasDistribution.left + c.biasDistribution.center +
      c.biasDistribution.right = c.articles.length := by
  obtain ⟨k, c₀, hinv, hceq, -⟩ := mem_clusterNarratives h
  obtain ⟨hl, hr, hc, -, -, -, -, -⟩ := hinv
  subst hceq
  rw [finalizeCluster_biasDistribution, finalizeCluster_articles, hl, hr, hc]
  exact countP_stance_partition c₀.articles

/-- Witness for C2 at the concrete four-article run. -/
theorem cluster_biasDistribution_sum_witness :
    ((clusterNarratives exArticles).headD
          (freshCluster "" "" "")).biasDistribution.left +
      ((clusterNarratives exArticles).headD
          (freshCluster "" "" "")).biasDistribution.center +
      ((clusterNarratives exArticles).headD
          (freshCluster "" "" "")).biasDistribution.right =
      ((clusterNarratives exArticles).headD
          (freshCluster "" "" "")).articles.length :=
  @cluster_biasDistribution_sum exArticles
    ((clusterNarratives exArticles).headD (freshCluster "" "" ""))
    (by decide)

/-- C4.  For every published cluster, each of the five `avgScores` is the
half-up-rounded mean of the members' scores for that dimension, and the
representative article is the first-encountered member minimising the sum
of squared deviations of its five scores from those averages. -/
theorem cluster_avgScores_and_representative {arts : List Article}
    {c : NarrativeCluster} (h : c ∈ clusterNarratives arts) :
    ((c.avgScores.ideologicalStance : ℤ) =
        jsRound (((c.articles.map
          (dimScoreOf BiasScores.ideologicalStance)).sum : ℚ) /
            c.articles.length) ∧
      (c.avgScores.factualGrounding : ℤ) =
        jsRound (((c.articles.map
          (dimScoreOf BiasScores.factualGrounding)).sum : ℚ) /
            c.articles.length) ∧
      (c.avgScores.framingChoices : ℤ) =
        jsRound (((c.articles.map
          (dimScoreOf BiasScores.framingChoices)).sum : ℚ) /
            c.articles.length) ∧
      (c.avgScores.emotionalTone : ℤ) =
        jsRound (((c.articles.map
          (dimScoreOf BiasScores.emotionalTone)).sum : ℚ) /
            c.articles.length) ∧
      (c.avgScores.sourceTransparency : ℤ) =
        jsRound (((c.articles.map
          (dimScoreOf BiasScores.sourceTransparency)).sum : ℚ) /
            c.articles.length)) ∧
    ∃ a l₁ l₂, c.representativeArticle = some a ∧
      c.articles = l₁ ++ a :: l₂ ∧
      (∀ b ∈ c.articles,
        distanceTo c.avgScores a ≤ distanceTo c.avgScores b) ∧
      ∀ b ∈ l₁, distanceTo c.avgScores a < distanceTo c.avgScores b := by
  obtain ⟨k, c₀, hinv, hceq, hlen⟩ := mem_clusterNarratives h
  obtain ⟨-, -, -, hsome, -, -, -, -⟩ := hinv
  have hlen₀ : 2 ≤ c₀.articles.length := by
    rw [hceq, finalizeCluster_articles] at hlen
    exact hlen
  have hne : c₀.articles ≠ [] := by
    intro h0
    rw [h0] at hlen₀
    exact absurd hlen₀ (by simp)
  subst hceq
  constructor
  · refine ⟨?_, ?_, ?_, ?_, ?_⟩ <;>
    · rw [finalizeCluster_avgScores, finalizeCluster_articles]
      exact avgDimScore_eq_jsRound c₀.articles hne _
  · have hrep : (finalizeCluster c₀).representativeArticle =
        firstMinBy (distanceTo (computeAvgScores c₀.articles))
          c₀.articles := by
      rw [finalizeCluster_representative]
      exact findRep_eq_firstMinBy _ hne hsome
    cases hfm : firstMinBy (distanceTo (computeAvgScores c₀.articles))
        c₀.articles with
    | none => exact absurd (firstMinBy_eq_none _ _ hfm) hne
    | some a =>
        obtain ⟨l₁, l₂, hsplit, hstrict⟩ := firstMinBy_split _ _ _ hfm
        refine ⟨a, l₁, l₂, by rw [hrep, hfm], ?_, ?_, ?_⟩
        · rw [finalizeCluster_articles]
          exact hsplit
        · intro b hb
          exact firstMinBy_le _ _ _ hfm b
            (by rwa [finalizeCluster_articles] at hb)
        · intro b hb
          exact hstrict b hb

/-- Witness for C4 at the concrete four-article run. -/
theorem cluster_avgScores_and_representative_witness :
    (let c := (clusterNarratives exArticles).headD (freshCluster "" "" "")
    ((c.avgScores.ideologicalStance : ℤ) =
        jsRound (((c.articles.map
          (dimScoreOf BiasScores.ideologicalStance)).sum : ℚ) /
            c.articles.length) ∧
      (c.avgScores.factualGrounding : ℤ) =
        jsRound (((c.articles.map
          (dimScoreOf BiasScores.factualGrounding)).sum : ℚ) /
            c.articles.length) ∧
      (c.avgScores.framingChoices : ℤ) =
        jsRound (((c.articles.map
          (dimScoreOf BiasScores.framingChoices)).sum : ℚ) /
            c.articles.length) ∧
      (c.avgScores.emotionalTone : ℤ) =
        jsRound (((c.articles.map
          (dimScoreOf BiasScores.emotionalTone)).sum : ℚ) /
            c.articles.length) ∧
      (c.avgScores.sourceTransparency : ℤ) =
        jsRound (((c.articles.map
          (dimScoreOf BiasScores.sourceTransparency)).sum : ℚ) /
            c.articles.length)) ∧
    ∃ a l₁ l₂, c.representativeArticle = some a ∧
      c.articles = l₁ ++ a :: l₂ ∧
      (∀ b ∈ c.articles,
        distanceTo c.avgScores a ≤ distanceTo c.avgScores b) ∧
      ∀ b ∈ l₁, distanceTo c.avgScores a < distanceTo c.avgScores b) :=
  @cluster_avgScores_and_representative exArticles
    ((clusterNarratives exArticles).headD (freshCluster "" "" ""))
    (by decide)

/-- C5.  The published cluster list drops clusters with fewer than two
members, is sorted descending by member count times distinct-source count,
and holds at most 8 clusters. -/
theorem clusterNarratives_filtered_sorted_capped (arts : List Article) :
    (∀ c ∈ clusterNarratives arts, 2 ≤ c.articles.length) ∧
    List.Pairwise
      (fun a b => b.articles.length * distinctSourceCount b ≤
        a.articles.length * distinctSourceCount a)
      (clusterNarratives arts) ∧
    (clusterNarratives arts).length ≤ 8 := by
  refine ⟨?_, ?_, ?_⟩
  · intro c hc
    obtain ⟨-, -, -, -, hlen⟩ := mem_clusterNarratives hc
    exact hlen
  · haveI : IsTotal NarrativeCluster clusterGE :=
      ⟨fun a b => (Nat.le_total (clusterScore a) (clusterScore b)).symm⟩
    haveI : IsTrans NarrativeCluster clusterGE :=
      ⟨fun _ _ _ hab hbc => le_trans hbc hab⟩
    have hsorted : List.Pairwise clusterGE (clusterNarratives arts) := by
      unfold clusterNarratives
      exact (List.sorted_insertionSort clusterGE _).sublist
        (List.take_sublist _ _)
    refine hsorted.imp_of_mem ?_
    intro a b ha hb hab
    unfold clusterGE clusterScore at hab
    rwa [sourceCount_length_of_mem ha, sourceCount_length_of_mem hb] at hab
  · unfold clusterNarratives
    exact List.length_take_le _ _

/-- Witness for C5 at the concrete four-article run (three climate/policy
articles plus one singleton). -/
theorem clusterNarratives_filtered_sorted_capped_witness :
    (∀ c ∈ clusterNarratives exArticles, 2 ≤ c.articles.length) ∧
    List.Pairwise
      (fun a b => b.articles.length * distinctSourceCount b ≤
        a.articles.length * distinctSourceCount a)
      (clusterNarratives exArticles) ∧
    (clusterNarratives exArticles).length ≤ 8 :=
  clusterNarratives_filtered_sorted_capped exArticles

/-- C6 (amended).  A member is tallied `left` exactly when its raw
ideological-stance score is nonzero and below 40, `right` exactly when it
exceeds 60, and `center` otherwise — in particular a score of exactly `0`
is coerced to the neutral default `50` by the JS `|| 50` and lands in
`center`, not `left`. -/
theorem cluster_biasDistribution_bands {arts : List Article}
    {c : NarrativeCluster} (h : c ∈ clusterNarratives arts) :
    c.biasDistribution.left =
      c.articles.countP (fun a => stanceScore a ≠ 0 ∧ stanceScore a < 40) ∧
    c.biasDistribution.right =
      c.articles.countP (fun a => 60 < stanceScore a) ∧
    c.biasDistribution.center =
      c.articles.countP (fun a => stanceScore a = 0 ∨
        (40 ≤ stanceScore a ∧ stanceScore a ≤ 60)) := by
  obtain ⟨k, c₀, hinv, hceq, -⟩ := mem_clusterNarratives h
  obtain ⟨hl, hr, hc, -, -, -, -, -⟩ := hinv
  subst hceq
  rw [finalizeCluster_biasDistribution, finalizeCluster_articles, hl, hr, hc]
  refine ⟨List.countP_congr ?_, List.countP_congr ?_,
    List.countP_congr ?_⟩ <;>
  · intro a _
    simp only [decide_eq_true_eq]
    unfold effectiveStance
    by_cases h0 : stanceScore a = 0 <;> simp [h0]

/-- Witness for the amended C6 at a concrete run whose members carry a
zero stance score. -/
theorem cluster_biasDistribution_bands_witness :
    ((clusterNarratives [exZ1, exZ2]).headD
        (freshCluster "" "" "")).biasDistribution.left =
      ((clusterNarratives [exZ1, exZ2]).headD
        (freshCluster "" "" "")).articles.countP
          (fun a => stanceScore a ≠ 0 ∧ stanceScore a < 40) ∧
    ((clusterNarratives [exZ1, exZ2]).headD
        (freshCluster "" "" "")).biasDistribution.right =
      ((clusterNarratives [exZ1, exZ2]).headD
        (freshCluster "" "" "")).articles.countP
          (fun a => 60 < stanceScore a) ∧
    ((clusterNarratives [exZ1, exZ2]).headD
        (freshCluster "" "" "")).biasDistribution.center =
      ((clusterNarratives [exZ1, exZ2]).headD
        (freshCluster "" "" "")).articles.countP
          (fun a => stanceScore a = 0 ∨
            (40 ≤ stanceScore a ∧ stanceScore a ≤ 60)) :=
  @cluster_biasDistribution_bands [exZ1, exZ2]
    ((clusterNarratives [exZ1, exZ2]).headD (freshCluster "" "" ""))
    (by decide)

/-- C6 as literally stated: the tally bands determined by the raw
ideological-stance score, `left` exactly below 40. -/
def rawBandTallyClaim : Prop :=
  ∀ (arts : List Article), ∀ c ∈ clusterNarratives arts,
    c.biasDistribution.left =
      c.articles.countP (fun a => stanceScore a < 40) ∧
    c.biasDistribution.right =
      c.articles.countP (fun a => 60 < stanceScore a) ∧
    c.biasDistribution.center =
      c.articles.countP (fun a => 40 ≤ stanceScore a ∧ stanceScore a ≤ 60)

/-- C6 counterexample: on two same-bucket articles whose stance score is
exactly `0` (below 40), the code tallies both as `center` (the JS `|| 50`
coerces the falsy score to 50), so `left` is 0 where the claim demands 2. -/
theorem rawBandTallyClaim_false : ¬ rawBandTallyClaim := by
  intro hcl
  have hmem : ((clusterNarratives [exZ1, exZ2]).headD
      (freshCluster "" "" "")) ∈ clusterNarratives [exZ1, exZ2] := by decide
  exact absurd (hcl [exZ1, exZ2] _ hmem).1 (by decide)

/-- C7.  Clustering is deterministic: repeated invocations on the same
list agree, every published cluster's id is the FNV-1a-style base-36 hash
of its own topic/framing key, and equal keys hash to equal ids. -/
theorem clusterNarratives_deterministic (arts : List Article) :
    clusterNarratives arts = clusterNarratives arts ∧
    (∀ c ∈ clusterNarratives arts,
      c.id = generateClusterId (c.topic ++ "_" ++ c.framingType)) ∧
    ∀ k₁ k₂ : String, k₁ = k₂ →
      generateClusterId k₁ = generateClusterId k₂ := by
  refine ⟨rfl, ?_, fun k₁ k₂ hk => by rw [hk]⟩
  intro c hc
  obtain ⟨k, c₀, hinv, hceq, -⟩ := mem_clusterNarratives hc
  obtain ⟨-, -, -, -, hid, -, -, -⟩ := hinv
  subst hceq
  rw [finalizeCluster_id, finalizeCluster_topic, finalizeCluster_framingType]
  exact hid

/-- Witness for C7 at the concrete four-article run. -/
theorem clusterNarratives_deterministic_witness :
    clusterNarratives exArticles = clusterNarratives exArticles ∧
    (∀ c ∈ clusterNarratives exArticles,
      c.id = generateClusterId (c.topic ++ "_" ++ c.framingType)) ∧
    ∀ k₁ k₂ : String, k₁ = k₂ →
      generateClusterId k₁ = generateClusterId k₂ :=
  clusterNarratives_deterministic exArticles

/-- C10.  Every published cluster has a populated representative article,
and it is one of the cluster's own members. -/
theorem representative_mem {arts : List Article} {c : NarrativeCluster}
    (h : c ∈ clusterNarratives arts) :
    ∃ a, c.representativeArticle = some a ∧ a ∈ c.articles := by
  obtain ⟨k, c₀, hinv, hceq, hlen⟩ := mem_clusterNarratives h
  obtain ⟨-, -, -, hsome, -, -, -, -⟩ := hinv
  have hlen₀ : 2 ≤ c₀.articles.length := by
    rw [hceq, finalizeCluster_articles] at hlen
    exact hlen
  have hne : c₀.articles ≠ [] := by
    intro h0
    rw [h0] at hlen₀
    exact absurd hlen₀ (by simp)
  subst hceq
  have hrep : (finalizeCluster c₀).representativeArticle =
      firstMinBy (distanceTo (computeAvgScores c₀.articles)) c₀.articles := by
    rw [finalizeCluster_representative]
    exact findRep_eq_firstMinBy _ hne hsome
  cases hfm : firstMinBy (distanceTo (computeAvgScores c₀.articles))
      c₀.articles with
  | none => exact absurd (firstMinBy_eq_none _ _ hfm) hne
  | some a =>
      refine ⟨a, by rw [hrep, hfm], ?_⟩
      rw [finalizeCluster_articles]
      exact firstMinBy_mem _ _ _ hfm

/-- Witness for C10 at the concrete zero-score two-article run. -/
theorem representative_mem_witness :
    ∃ a, ((clusterNarratives [exZ1, exZ2]).headD
        (freshCluster "" "" "")).representativeArticle = some a ∧
      a ∈ ((clusterNarratives [exZ1, exZ2]).headD
        (freshCluster "" "" "")).articles :=
  @representative_mem [exZ1, exZ2]
    ((clusterNarratives [exZ1, exZ2]).headD (freshCluster "" "" ""))
    (by decide)

/-! ### The framing cascade claim (C3) -/

/-- The framing cascade exactly as the claim states it: in the final
tone-based stage, any tone score below 40 yields `"alarmist"`. -/
def specFramingCascade (article : Article) (bs : BiasScores) : String :=
  let content := toLowerStr (article.headline ++ " " ++ article.content)
  if strIncludes content "cost" || strIncludes content "economy" ||
      strIncludes content "budget" then
    if bs.ideologicalStance.score > 60 then "economic-concern"
    else "economic-impact"
  else if strIncludes content "security" || strIncludes content "safety" ||
      strIncludes content "threat" then
    "security-focused"
  else if strIncludes content "rights" || strIncludes content "humanitarian" ||
      strIncludes content "justice" then
    "rights-based"
  else if strIncludes content "policy" || strIncludes content "legislation" ||
      strIncludes content "regulation" then
    "policy-focused"
  else if bs.emotionalTone.score < 40 then "alarmist"
  else if bs.emotionalTone.score > 70 then "neutral-reporting"
  else "advocacy-oriented"

/-- C3 as literally stated: for every article with bias scores, the code's
framing equals the claimed cascade. -/
def framingCascadeClaim : Prop :=
  ∀ (article : Article) (bs : BiasScores), article.biasScores = some bs →
    detectFramingType article = specFramingCascade article bs

/-- C3 counterexample: a keyword-free article whose emotional-tone score is
exactly `0` (which is below 40).  The claimed cascade yields `"alarmist"`,
but the code's truthiness guard `score && score < 40` treats the zero
score as missing and returns `"advocacy-oriented"`. -/
theorem framingCascadeClaim_false : ¬ framingCascadeClaim := by
  intro hcl
  have h := hcl exTone0 (mkScores 50 50 50 0 50) rfl
  exact absurd h (by decide)

/-- The framing cascade as amended: identical to the claim except that the
`"alarmist"` branch additionally requires a nonzero tone score (a zero
score is falsy in JS and falls through to `"advocacy-oriented"`). -/
def specFramingCascadeAmended (article : Article) (bs : BiasScores) : String :=
  let content := toLowerStr (article.headline ++ " " ++ article.content)
  if strIncludes content "cost" || strIncludes content "economy" ||
      strIncludes content "budget" then
    if bs.ideologicalStance.score > 60 then "economic-concern"
    else "economic-impact"
  else if strIncludes content "security" || strIncludes content "safety" ||
      strIncludes content "threat" then
    "security-focused"
  else if strIncludes content "rights" || strIncludes content "humanitarian" ||
      strIncludes content "justice" then
    "rights-based"
  else if strIncludes content "policy" || strIncludes content "legislation" ||
      strIncludes content "regulation" then
    "policy-focused"
  else if bs.emotionalTone.score ≠ 0 ∧ bs.emotionalTone.score < 40 then
    "alarmist"
  else if bs.emotionalTone.score > 70 then "neutral-reporting"
  else "advocacy-oriented"

/-- C3 (amended).  For every article with bias scores, the code's framing
type follows the claimed ordered priority cascade, with the single
correction that in the tone stage `"alarmist"` requires a nonzero tone
score below 40 (a zero score falls through to `"advocacy-oriented"`). -/
theorem detectFramingType_cascade (article : Article) (bs : BiasScores)
    (h : article.biasScores = some bs) :
    detectFramingType article = specFramingCascadeAmended article bs := by
  unfold detectFramingType specFramingCascadeAmended
  rw [h]
  dsimp only
  split_ifs <;> first | rfl | (exfalso; omega)

/-- Witness for C3 (amended) at a concrete article. -/
theorem detectFramingType_cascade_witness :
    detectFramingType exA1 =
      specFramingCascadeAmended exA1 (mkScores 30 40 50 60 70) :=
  detectFramingType_cascade exA1 (mkScores 30 40 50 60 70) rfl

/-! ### The scoring adapter (C8, C9)

The bias scoring adapter (`biasAnalyzer.analyzeArticle`) is not among the
source files under `src/`; only its callers and the `BiasScores` data
shape are.  The definitions below are therefore modelled from the spec
(§4.4), as marked in their doc comments. -/

/-- Modelled from the spec: the scorer collaborator's response, as the
tagged result type of §9 — a parsed structured payload, a payload that
could not be parsed, or a failed call. -/
inductive ScorerResponse where
  | ok (payload : BiasScores)
  | parseError
  | transportError
deriving DecidableEq, Repr

/-- Modelled from the spec: the synthetic neutral baseline returned on the
fallback paths (score 50 per dimension, schema-complete). -/
def neutralFallbackScores : BiasScores :=
  { ideologicalStance := mkScore 50, factualGrounding := mkScore 50,
    framingChoices := mkScore 50, emotionalTone := mkScore 50,
    sourceTransparency := mkScore 50, overallBiasLevel := 50,
    primarySources := [], analyzedAt := "", analysisStatus := none,
    isFallback := none }

/-- Modelled from the spec: the outcome paths of the scoring adapter's
`score(article)` (`biasAnalyzer.analyzeArticle`, source not under `src/`,
§4.4): body text under 240 characters after trimming short-circuits to
`fallback-empty`; otherwise a failed call yields `fallback-api`, an
unparsable payload `fallback-parse`, and a parsed payload is tagged `ai`.
The `ai` branch sets `isFallback = false`; every fallback branch sets
`isFallback = true`. -/
def analyzeArticle (content : String) (response : ScorerResponse) :
    BiasScores :=
  if content.trim.length < 240 then
    { neutralFallbackScores with
      analysisStatus := some AnalysisStatus.fallbackEmpty,
      isFallback := some true }
  else
    match response with
    | ScorerResponse.ok payload =>
        { payload with
          analysisStatus := some AnalysisStatus.ai,
          isFallback := some false }
    | ScorerResponse.parseError =>
        { neutralFallbackScores with
          analysisStatus := some AnalysisStatus.fallbackParse,
          isFallback := some true }
    | ScorerResponse.transportError =>
        { neutralFallbackScores with
          analysisStatus := some AnalysisStatus.fallbackApi,
          isFallback := some true }

/-- C8.  Every `BiasScores` value produced by the scoring adapter has
`isFallback = true` exactly when its outcome tag is not `ai` (i.e. it is
one of the three fallback tags). -/
theorem analyzeArticle_isFallback_iff (content : String)
    (response : ScorerResponse) :
    (analyzeArticle content response).isFallback = some true ↔
      (analyzeArticle content response).analysisStatus ≠
        some AnalysisStatus.ai := by
  unfold analyzeArticle
  split_ifs
  · simp
  · cases response <;> simp

/-- Modelled from the spec: the per-dimension confidence-interval
derivation of the scoring adapter (§4.4, source not under `src/`):
nominal width `max(4, round(40 × (1 − confidence)))`, half-width
`round(width / 2)`, bounds clamped to `[0, 100]`, stored width
`upper − lower`. -/
def deriveConfidenceInterval (score : ℤ) (confidence : ℚ) :
    ConfidenceInterval :=
  let w : ℤ := max 4 (jsRound (40 * (1 - confidence)))
  let half : ℤ := jsRound ((w : ℚ) / 2)
  { lower := max 0 (score - half)
    upper := min 100 (score + half)
    width := min 100 (score + half) - max 0 (score - half) }

/-- C9.  For a dimension score in `[0,100]` and a confidence in `[0,1]`,
the derived interval has `lower = max 0 (score − half)` and
`upper = min 100 (score + half)` for the half-width rounded from the
nominal width `max 4 (round (40(1−confidence)))`, its stored width is
`upper − lower`, and consequently `lower ≤ score ≤ upper`. -/
theorem deriveConfidenceInterval_bounds (score : ℤ) (confidence : ℚ)
    (hs0 : 0 ≤ score) (hs1 : score ≤ 100) (_hc0 : 0 ≤ confidence)
    (_hc1 : confidence ≤ 1) :
    (deriveConfidenceInterval score confidence).lower =
      max 0 (score -
        jsRound (((max 4 (jsRound (40 * (1 - confidence))) : ℤ) : ℚ) / 2)) ∧
    (deriveConfidenceInterval score confidence).upper =
      min 100 (score +
        jsRound (((max 4 (jsRound (40 * (1 - confidence))) : ℤ) : ℚ) / 2)) ∧
    (deriveConfidenceInterval score confidence).width =
      (deriveConfidenceInterval score confidence).upper -
        (deriveConfidenceInterval score confidence).lower ∧
    (deriveConfidenceInterval score confidence).lower ≤ score ∧
    score ≤ (deriveConfidenceInterval score confidence).upper := by
  have hw : (4 : ℤ) ≤ max 4 (jsRound (40 * (1 - confidence))) :=
    le_max_left _ _
  have hw0 : (0 : ℤ) ≤ max 4 (jsRound (40 * (1 - confidence))) :=
    le_trans (by norm_num) hw
  have hhalf : 0 ≤
      jsRound (((max 4 (jsRound (40 * (1 - confidence))) : ℤ) : ℚ) / 2) := by
    refine Int.le_floor.mpr ?_
    have hq : (0 : ℚ) ≤ ((max 4 (jsRound (40 * (1 - confidence))) : ℤ) : ℚ) / 2 :=
      div_nonneg (by exact_mod_cast hw0) (by norm_num)
    push_cast at hq ⊢
    linarith
  refine ⟨rfl, rfl, rfl, ?_, ?_⟩
  · exact max_le hs0 (sub_le_self _ hhalf)
  · exact le_min hs1 (le_add_of_nonneg_right hhalf)

/-- Witness for C9 at score 50 and confidence 1/2. -/
theorem deriveConfidenceInterval_bounds_witness :
    (deriveConfidenceInterval 50 (1/2)).lower =
      max 0 (50 -
        jsRound (((max 4 (jsRound (40 * (1 - 1/2))) : ℤ) : ℚ) / 2)) ∧
    (deriveConfidenceInterval 50 (1/2)).upper =
      min 100 (50 +
        jsRound (((max 4 (jsRound (40 * (1 - 1/2))) : ℤ) : ℚ) / 2)) ∧
    (deriveConfidenceInterval 50 (1/2)).width =
      (deriveConfidenceInterval 50 (1/2)).upper -
        (deriveConfidenceInterval 50 (1/2)).lower ∧
    (deriveConfidenceInterval 50 (1/2)).lower ≤ 50 ∧
    (50 : ℤ) ≤ (deriveConfidenceInterval 50 (1/2)).upper :=
  deriveConfidenceInterval_bounds 50 (1/2) (by norm_num) (by norm_num)
    (by norm_num) (by norm_num)

end BiasNews
